import Mathlib

/-!
Verification of the file-selection/validation/preview subsystem
(`useFileHandler` in part_002 and the `FileInput` surface in part_004).

Modelling conventions:
- JavaScript numbers used for byte counts and sizes are modelled as `Nat`
  (they are non-negative integers in every code path considered); the results
  of divisions are modelled as `Rat`, since the divisions by powers of two of
  integer byte counts that the code performs are exact in IEEE doubles for all
  realistic byte counts.
- `Number.prototype.toFixed(1)` followed by `parseFloat` is modelled as
  rounding to the nearest tenth, half up (the tie-breaking rule of `toFixed`).
- Object spread of a selected file is modelled as a field-by-field copy of the
  structural record (`name`, `size`, `type`).
- `URL.createObjectURL` is modelled by a deterministic allocator drawing the
  fresh handles "blob:0", "blob:1", ...; `URL.revokeObjectURL` is modelled by
  emitting a `revoked` event.  The JavaScript truthiness test `if (file.preview)`
  skips both a missing preview and the empty string.
- React semantics of the hook: `setFiles` always stores a freshly created
  array, so the effect whose dependency list is `[files]` runs its previous
  cleanup (revoking the previews of the files list captured at the previous
  render) after every `setFiles`, and registers a new cleanup capturing the
  new list.  The state field `cleanupFiles` records the list captured by the
  currently registered cleanup; tearing the component down runs that cleanup
  one final time.
- Callbacks (`onFilesChanged`, `onFilesRejected`) are modelled as emitted
  events carrying their argument; whether `onFilesRejected` was supplied is
  the configuration flag `hasOnFilesRejected`.
-/

/-- The string enum `FileType` of the source. -/
inductive FileType
  | Audio
  | Image
  | Text
  | Video
deriving DecidableEq, Repr, BEq

/-- String value carried by each member of the TypeScript string enum. -/
def FileType.val : FileType → String
  | FileType.Audio => "audio/*"
  | FileType.Image => "image/*"
  | FileType.Text => "text/*"
  | FileType.Video => "video/*"

/-- The `ByteUnit` type of the source. -/
inductive ByteUnit
  | MB
  | GB
deriving DecidableEq, Repr, BEq

/-- String rendering of a `ByteUnit`. -/
def ByteUnit.str : ByteUnit → String
  | ByteUnit.MB => "MB"
  | ByteUnit.GB => "GB"

/-- Model of `parseFloat(x.toFixed(1))`: round to the nearest tenth, ties up. -/
def toFixed1 (q : ℚ) : ℚ := (⌊q * 10 + 1 / 2⌋ : ℚ) / 10

/-- Source `bytesToUnit` (part_002, lines 19-28): divide by 2^20 (MB) or
2^30 (GB) and keep one decimal place. -/
def bytesToUnit (bytes : ℕ) (unit : ByteUnit) : ℚ :=
  match unit with
  | ByteUnit.MB => toFixed1 ((bytes : ℚ) / (1024 * 1024))
  | ByteUnit.GB => toFixed1 ((bytes : ℚ) / (1024 * 1024 * 1024))

/-- Source `getAppropriateUnit` (part_002, lines 57-59). -/
def getAppropriateUnit (bytes : ℕ) : ByteUnit :=
  if 1024 * 1024 * 1024 ≤ bytes then ByteUnit.GB else ByteUnit.MB

/-- Source `bytesToMB` of the `FileInput` component (part_004, lines 26-30). -/
def bytesToMB (bytes : ℕ) : ℚ := toFixed1 ((bytes : ℚ) / (1024 * 1024))

/-- JavaScript `Number` to string for the non-negative exact multiples of one
tenth produced by the toFixed-based conversions: an integer prints without a
fractional part, otherwise one digit is printed after the point. -/
def ratTenthsToString (q : ℚ) : String :=
  let n : ℕ := (q * 10).num.toNat
  if n % 10 = 0 then toString (n / 10)
  else toString (n / 10) ++ "." ++ toString (n % 10)

/-- Whether `pat` is an initial run of `l` (character lists). -/
def charsLead : List Char → List Char → Bool
  | [], _ => true
  | _ :: _, [] => false
  | p :: ps, c :: cs => p == c && charsLead ps cs

/-- Whether `pat` occurs contiguously anywhere in the second list. -/
def charsHaveSub (pat : List Char) : List Char → Bool
  | [] => charsLead pat []
  | c :: cs => charsLead pat (c :: cs) || charsHaveSub pat cs

/-- JavaScript `String.prototype.includes`: substring containment. -/
def jsIncludes (s key : String) : Bool := charsHaveSub key.toList s.toList

/-- JavaScript `String.prototype.startsWith`. -/
def jsStartsWith (s pre : String) : Bool := charsLead pre.toList s.toList

/-- Source `mapType` (part_002, lines 35-50): iterate the keys of the
`typeMap` object literal in insertion order and return the value of the first
key contained anywhere in the mime string; default to `Image`. -/
def mapType (type : String) : FileType :=
  if jsIncludes type "application" then FileType.Text
  else if jsIncludes type "text" then FileType.Text
  else if jsIncludes type "image" then FileType.Image
  else if jsIncludes type "audio" then FileType.Audio
  else if jsIncludes type "video" then FileType.Video
  else FileType.Image

/-- A raw candidate file handle as supplied by the platform picker. -/
structure FileMeta where
  name : String
  size : ℕ
  type : String
deriving DecidableEq, Repr, BEq

/-- Source `FileWithPreview` (part_002, lines 61-64): a file record plus the
optional `preview` object URL and the optional `error` annotation. -/
structure FileWithPreview where
  name : String
  size : ℕ
  type : String
  preview : Option String
  error : Option String
deriving DecidableEq, Repr, BEq

/-- The raw metadata of a stored file entry. -/
def FileWithPreview.toMeta (f : FileWithPreview) : FileMeta :=
  { name := f.name, size := f.size, type := f.type }

/-- Configuration of `useFileHandler` (part_002, lines 66-73), with the
optional rejection callback abstracted to a presence flag. -/
structure Config where
  maxFiles : ℕ
  maxSize : ℕ
  acceptedType : String
  hasOnFilesRejected : Bool
deriving DecidableEq, Repr

/-- Source `validateFile` (part_002, lines 101-117): the size check runs
first, then the mapped-type check; `none` means valid. -/
def validateFile (cfg : Config) (file : FileMeta) : Option String :=
  if cfg.maxSize < file.size then
    some ("The file \"" ++ file.name ++ "\" exceeds the maximum size of " ++
      ratTenthsToString (bytesToUnit cfg.maxSize (getAppropriateUnit cfg.maxSize)) ++ " " ++
      (getAppropriateUnit cfg.maxSize).str ++ ".")
  else if (mapType file.type).val ≠ cfg.acceptedType then
    some ("The file type \"" ++ file.type ++ "\" is not accepted.")
  else
    none

/-- Deterministic model of `URL.createObjectURL`: the `counter`-th allocated
handle. -/
def allocPreview (counter : ℕ) : String := "blob:" ++ toString counter

/-- Accumulator of `validateSelectedFiles`, extended with the list of handles
allocated during the pass and the allocator counter. -/
structure ValidationOut where
  acceptedFiles : List FileWithPreview
  rejectedFiles : List FileWithPreview
  errorMessages : List String
  allocated : List String
  counter : ℕ
deriving DecidableEq, Repr

/-- Body of the `forEach` loop of `validateSelectedFiles` (part_002,
lines 136-150). -/
def vstep (cfg : Config) (out : ValidationOut) (file : FileMeta) : ValidationOut :=
  match validateFile cfg file with
  | some error =>
      { out with
        rejectedFiles := out.rejectedFiles ++
          [{ name := file.name, size := file.size, type := file.type,
             preview := none, error := some error }],
        errorMessages := out.errorMessages ++ [error] }
  | none =>
      if jsStartsWith file.type "image/" then
        { out with
          acceptedFiles := out.acceptedFiles ++
            [{ name := file.name, size := file.size, type := file.type,
               preview := some (allocPreview out.counter), error := none }],
          allocated := out.allocated ++ [allocPreview out.counter],
          counter := out.counter + 1 }
      else
        { out with
          acceptedFiles := out.acceptedFiles ++
            [{ name := file.name, size := file.size, type := file.type,
               preview := none, error := none }] }

/-- Source `validateSelectedFiles` (part_002, lines 124-155). -/
def validateSelectedFiles (cfg : Config) (selectedFiles : List FileMeta) (counter : ℕ) :
    ValidationOut :=
  selectedFiles.foldl (vstep cfg)
    { acceptedFiles := [], rejectedFiles := [], errorMessages := [],
      allocated := [], counter := counter }

/-- The handle a truthy `file.preview` carries (`undefined` and the empty
string are falsy and are skipped by every revocation site). -/
def previewHandleOf (f : FileWithPreview) : Option String :=
  match f.preview with
  | some p => if p ≠ "" then some p else none
  | none => none

/-- Source `revokePreviews` (part_002, lines 161-167), as the ordered list of
handles it revokes. -/
def revokePreviews (fileList : List FileWithPreview) : List String :=
  fileList.filterMap previewHandleOf

/-- The aggregate maximum-files error message of `handleFiles`. -/
def maxFilesErrorMsg (maxFiles : ℕ) : String :=
  "You can upload a maximum of " ++ toString maxFiles ++ " file(s)."

/-- The per-file annotation set on accepted-turned-rejected files. -/
def setCountError (f : FileWithPreview) : FileWithPreview :=
  { f with error := some "Exceeded the maximum number of allowed files." }

/-- Source `getNewFiles` (part_002, lines 174-198), with the locals
`totalFiles` and `numToAdd` inlined.  The second component is the ordered list
of handles revoked by the `revokePreviews(files)` call of the `maxFiles === 1`
branch; `none` models the `null` return. -/
def getNewFiles (maxFiles : ℕ) (files acceptedFiles : List FileWithPreview) :
    Option (List FileWithPreview) × List String :=
  if maxFiles = 1 then
    (some (acceptedFiles.take maxFiles), revokePreviews files)
  else if maxFiles < files.length + acceptedFiles.length then
    if 0 < (maxFiles : ℤ) - (files.length : ℤ) then
      (some (files ++ acceptedFiles.take ((maxFiles : ℤ) - (files.length : ℤ)).toNat), [])
    else
      (none, [])
  else
    (some (files ++ acceptedFiles), [])

/-- Controller state: the two `useState` cells, the files list captured by the
currently registered effect cleanup, and the preview-handle allocator. -/
structure HState where
  files : List FileWithPreview
  errors : List String
  cleanupFiles : List FileWithPreview
  counter : ℕ
deriving DecidableEq, Repr

/-- Observable events of one controller step, in order of occurrence. -/
inductive Event
  | allocated (handle : String)
  | revoked (handle : String)
  | filesChanged (files : List FileWithPreview)
  | filesRejected (files : List FileWithPreview)
deriving DecidableEq, Repr, BEq

/-- Source `handleFiles` (part_002, lines 204-235) together with the
post-render run of the cleanup effect (lines 281-285), which fires exactly
when `setFiles` was called. -/
def handleFiles (cfg : Config) (st : HState) (selectedFiles : List FileMeta) :
    HState × List Event :=
  let v := validateSelectedFiles cfg selectedFiles st.counter
  let allocEvents := v.allocated.map Event.allocated
  if 0 < v.acceptedFiles.length then
    match getNewFiles cfg.maxFiles st.files v.acceptedFiles with
    | (some newFiles, revokedNow) =>
        let syncEvents := allocEvents ++ revokedNow.map Event.revoked ++
          [Event.filesChanged newFiles] ++
          (if 0 < v.rejectedFiles.length ∧ cfg.hasOnFilesRejected = true then
            [Event.filesRejected v.rejectedFiles] else [])
        ({ files := newFiles, errors := v.errorMessages,
           cleanupFiles := newFiles, counter := v.counter },
         syncEvents ++ (revokePreviews st.cleanupFiles).map Event.revoked)
    | (none, revokedNow) =>
        ({ st with errors := v.errorMessages ++ [maxFilesErrorMsg cfg.maxFiles],
                   counter := v.counter },
         allocEvents ++ revokedNow.map Event.revoked ++
           (if cfg.hasOnFilesRejected = true then
             [Event.filesRejected (v.acceptedFiles.map setCountError)] else []))
  else
    ({ st with errors := v.errorMessages, counter := v.counter },
     allocEvents ++
       (if 0 < v.rejectedFiles.length ∧ cfg.hasOnFilesRejected = true then
         [Event.filesRejected v.rejectedFiles] else []))

/-- Removal by position: `files.filter((_, i) => i !== index)` unrolled with
the running position `i`. -/
def removeIdxGo (index : ℕ) : ℕ → List FileWithPreview → List FileWithPreview
  | _, [] => []
  | i, f :: rest =>
      if i = index then removeIdxGo index (i + 1) rest
      else f :: removeIdxGo index (i + 1) rest

/-- Source `removeFile` (part_002, lines 241-252) together with the
post-render cleanup run (the filter always builds a fresh array, so `setFiles`
always re-triggers the effect). -/
def removeFile (st : HState) (index : ℕ) : HState × List Event :=
  let removedNow :=
    match st.files[index]? with
    | some f => (previewHandleOf f).toList
    | none => []
  let newFiles := removeIdxGo index 0 st.files
  ({ st with files := newFiles, cleanupFiles := newFiles },
   removedNow.map Event.revoked ++ [Event.filesChanged newFiles] ++
     (revokePreviews st.cleanupFiles).map Event.revoked)

/-- Per-file body of the `currentFiles` initialization effect (part_002,
lines 259-270): a falsy preview of an image-typed file becomes the empty
string, everything else is returned unchanged. -/
def initFile (f : FileWithPreview) : FileWithPreview :=
  match f.preview with
  | some p =>
      if p ≠ "" then f
      else if f.type ≠ "" ∧ jsStartsWith f.type "image/" = true then
        { f with preview := some "" }
      else f
  | none =>
      if f.type ≠ "" ∧ jsStartsWith f.type "image/" = true then
        { f with preview := some "" }
      else f

/-- Adoption of an externally supplied `currentFiles` list (part_002,
lines 254-279), together with the post-render cleanup run. -/
def adoptFiles (st : HState) (currentFiles : List FileWithPreview) :
    HState × List Event :=
  let adopted := currentFiles.map initFile
  ({ st with files := adopted, cleanupFiles := adopted },
   [Event.filesChanged adopted] ++ (revokePreviews st.cleanupFiles).map Event.revoked)

/-- One user-visible operation on a controller instance. -/
inductive Op
  | handle (candidates : List FileMeta)
  | remove (index : ℕ)
  | adopt (currentFiles : List FileWithPreview)
deriving DecidableEq, Repr

/-- Whether the operation is a direct `handleFiles`/`removeFile` call (rather
than adoption of an external `currentFiles` value). -/
def Op.isUserOp : Op → Bool
  | Op.handle _ => true
  | Op.remove _ => true
  | Op.adopt _ => false

/-- One step of the controller. -/
def step (cfg : Config) (st : HState) : Op → HState × List Event
  | Op.handle candidates => handleFiles cfg st candidates
  | Op.remove index => removeFile st index
  | Op.adopt currentFiles => adoptFiles st currentFiles

/-- Run a sequence of operations, accumulating the event trace. -/
def run (cfg : Config) : HState → List Op → HState × List Event
  | st, [] => (st, [])
  | st, op :: ops =>
      let out := step cfg st op
      let rest := run cfg out.1 ops
      (rest.1, out.2 ++ rest.2)

/-- Freshly mounted controller: empty lists, cleanup registered over `[]`. -/
def initState : HState :=
  { files := [], errors := [], cleanupFiles := [], counter := 0 }

/-- Run a sequence of operations from the initial state and then tear the
controller down (running the registered cleanup one final time). -/
def runTeardown (cfg : Config) (ops : List Op) : HState × List Event :=
  let out := run cfg initState ops
  (out.1, out.2 ++ (revokePreviews out.1.cleanupFiles).map Event.revoked)

/-! Concrete instances used by individual claims. -/

/-- Configuration used for the claim C1 run: two image slots, image type. -/
def cfgClaim1 : Config :=
  { maxFiles := 2, maxSize := 1000000, acceptedType := "image/*", hasOnFilesRejected := false }

/-- Operations of the claim C1 run: two single-image selections. -/
def opsClaim1 : List Op :=
  [Op.handle [{ name := "a.png", size := 10, type := "image/png" }],
   Op.handle [{ name := "b.png", size := 20, type := "image/png" }]]

/-- Configuration used for the claim C2 counterexample. -/
def cfgClaim2 : Config :=
  { maxFiles := 2, maxSize := 100, acceptedType := "text/*", hasOnFilesRejected := false }

/-- Reachable state with exactly one selected text file. -/
def stClaim2 : HState :=
  (run cfgClaim2 initState [Op.handle [{ name := "a.txt", size := 1, type := "text/plain" }]]).1

/-- Configuration used for the claim C4 counterexample (rejection callback supplied). -/
def cfgClaim4 : Config :=
  { maxFiles := 2, maxSize := 100, acceptedType := "text/*", hasOnFilesRejected := true }

/-- Reachable state with two selected text files (the list is full). -/
def stClaim4 : HState :=
  (run cfgClaim4 initState
    [Op.handle [{ name := "a.txt", size := 1, type := "text/plain" },
                { name := "b.txt", size := 1, type := "text/plain" }]]).1

/-- Claim C4 counterexample batch: one type-invalid file and one valid file. -/
def candClaim4 : List FileMeta :=
  [{ name := "x.png", size := 1, type := "image/png" },
   { name := "c.txt", size := 1, type := "text/plain" }]

/-- Configuration used for the claim C6 counterexample: a single file slot. -/
def cfgClaim6 : Config :=
  { maxFiles := 1, maxSize := 100, acceptedType := "image/*", hasOnFilesRejected := false }

/-- Externally supplied list of two files, adopted despite exceeding maxFiles. -/
def curClaim6 : List FileWithPreview :=
  [{ name := "a", size := 1, type := "image/png", preview := none, error := none },
   { name := "b", size := 1, type := "image/png", preview := none, error := none }]

/-- Configuration used for the claim C5 witness: three file slots. -/
def cfgClaim5 : Config :=
  { maxFiles := 3, maxSize := 100, acceptedType := "text/*", hasOnFilesRejected := true }

/-- Reachable state with two selected text files out of three slots. -/
def stClaim5 : HState :=
  (run cfgClaim5 initState
    [Op.handle [{ name := "a.txt", size := 1, type := "text/plain" },
                { name := "b.txt", size := 1, type := "text/plain" }]]).1

/-- Claim C5 witness batch: three further valid candidates for one free slot. -/
def candClaim5 : List FileMeta :=
  [{ name := "c.txt", size := 1, type := "text/plain" },
   { name := "d.txt", size := 1, type := "text/plain" },
   { name := "e.txt", size := 1, type := "text/plain" }]

/-! Helper lemmas. -/

/-- Every file accepted by a validation pass passes `validateFile`. -/
theorem accepted_validate_none (cfg : Config) (l : List FileMeta) :
    ∀ out : ValidationOut,
      (∀ e ∈ out.acceptedFiles, validateFile cfg e.toMeta = none) →
      ∀ e ∈ (l.foldl (vstep cfg) out).acceptedFiles, validateFile cfg e.toMeta = none := by
  induction l with
  | nil => intro out h e he; exact h e he
  | cons f fs ih =>
      intro out h
      simp only [List.foldl_cons]
      refine ih (vstep cfg out f) ?_
      intro e he
      unfold vstep at he
      cases hval : validateFile cfg f with
      | some err =>
          rw [hval] at he
          exact h e he
      | none =>
          rw [hval] at he
          by_cases himg : jsStartsWith f.type "image/" = true
          · rw [if_pos himg] at he
            simp only [List.mem_append, List.mem_singleton] at he
            rcases he with h1 | h1
            · exact h e h1
            · subst h1
              simpa [FileWithPreview.toMeta] using hval
          · rw [if_neg himg] at he
            simp only [List.mem_append, List.mem_singleton] at he
            rcases he with h1 | h1
            · exact h e h1
            · subst h1
              simpa [FileWithPreview.toMeta] using hval

/-- Every file in `acceptedFiles` of `validateSelectedFiles` passes validation. -/
theorem mem_acceptedFiles_validate (cfg : Config) (cand : List FileMeta) (counter : ℕ) :
    ∀ e ∈ (validateSelectedFiles cfg cand counter).acceptedFiles,
      validateFile cfg e.toMeta = none := by
  refine accepted_validate_none cfg cand _ ?_
  intro e he
  simp at he

/-- Members of a `some` result of `getNewFiles` come from the previous list or
from the accepted batch. -/
theorem getNewFiles_some_mem {m : ℕ} {files acc nf : List FileWithPreview} {rv : List String}
    (hg : getNewFiles m files acc = (some nf, rv)) :
    ∀ e ∈ nf, e ∈ files ∨ e ∈ acc := by
  unfold getNewFiles at hg
  split at hg
  · simp only [Prod.mk.injEq, Option.some.inj] at hg
    obtain ⟨h1, _⟩ := hg
    have h1 : acc.take m = nf := Option.some.inj h1
    subst h1
    intro e he
    exact Or.inr (List.take_subset _ _ he)
  · split at hg
    · split at hg
      · simp only [Prod.mk.injEq] at hg
        obtain ⟨h1, _⟩ := hg
        have h1 : files ++ acc.take _ = nf := Option.some.inj h1
        subst h1
        intro e he
        rcases List.mem_append.mp he with h2 | h2
        · exact Or.inl h2
        · exact Or.inr (List.take_subset _ _ h2)
      · simp at hg
    · simp only [Prod.mk.injEq] at hg
      obtain ⟨h1, _⟩ := hg
      have h1 : files ++ acc = nf := Option.some.inj h1
      subst h1
      intro e he
      exact List.mem_append.mp he

/-- Length bound for a `some` result of `getNewFiles`. -/
theorem getNewFiles_some_length {m : ℕ} {files acc nf : List FileWithPreview} {rv : List String}
    (hg : getNewFiles m files acc = (some nf, rv)) :
    nf.length ≤ m := by
  unfold getNewFiles at hg
  split at hg
  · rename_i h1
    simp only [Prod.mk.injEq] at hg
    obtain ⟨h2, _⟩ := hg
    have h2 : acc.take m = nf := Option.some.inj h2
    subst h2
    exact List.length_take_le m acc
  · split at hg
    · rename_i h1 h2
      split at hg
      · rename_i h3
        simp only [Prod.mk.injEq] at hg
        obtain ⟨h4, _⟩ := hg
        have h4 : files ++ acc.take (((m : ℤ) - (files.length : ℤ)).toNat) = nf :=
          Option.some.inj h4
        subst h4
        have h5 := List.length_take_le (((m : ℤ) - (files.length : ℤ)).toNat) acc
        simp only [List.length_append]
        omega
      · simp at hg
    · rename_i h1 h2
      simp only [Prod.mk.injEq] at hg
      obtain ⟨h4, _⟩ := hg
      have h4 : files ++ acc = nf := Option.some.inj h4
      subst h4
      simp only [List.length_append]
      omega

/-- Unfolding of `handleFiles` when the count policy accepts a new list. -/
theorem handleFiles_eq_some (cfg : Config) (st : HState) (cand : List FileMeta)
    (nf : List FileWithPreview) (rv : List String)
    (hacc : 0 < (validateSelectedFiles cfg cand st.counter).acceptedFiles.length)
    (hg : getNewFiles cfg.maxFiles st.files
      (validateSelectedFiles cfg cand st.counter).acceptedFiles = (some nf, rv)) :
    handleFiles cfg st cand =
      ({ files := nf,
         errors := (validateSelectedFiles cfg cand st.counter).errorMessages,
         cleanupFiles := nf,
         counter := (validateSelectedFiles cfg cand st.counter).counter },
       (validateSelectedFiles cfg cand st.counter).allocated.map Event.allocated ++
         rv.map Event.revoked ++ [Event.filesChanged nf] ++
         (if 0 < (validateSelectedFiles cfg cand st.counter).rejectedFiles.length ∧
             cfg.hasOnFilesRejected = true then
           [Event.filesRejected (validateSelectedFiles cfg cand st.counter).rejectedFiles]
         else []) ++
         (revokePreviews st.cleanupFiles).map Event.revoked) := by
  unfold handleFiles
  rw [if_pos hacc, hg]

/-- Unfolding of `handleFiles` when the count policy returns `null`. -/
theorem handleFiles_eq_none (cfg : Config) (st : HState) (cand : List FileMeta)
    (rv : List String)
    (hacc : 0 < (validateSelectedFiles cfg cand st.counter).acceptedFiles.length)
    (hg : getNewFiles cfg.maxFiles st.files
      (validateSelectedFiles cfg cand st.counter).acceptedFiles = (none, rv)) :
    handleFiles cfg st cand =
      ({ st with
         errors := (validateSelectedFiles cfg cand st.counter).errorMessages ++
           [maxFilesErrorMsg cfg.maxFiles],
         counter := (validateSelectedFiles cfg cand st.counter).counter },
       (validateSelectedFiles cfg cand st.counter).allocated.map Event.allocated ++
         rv.map Event.revoked ++
         (if cfg.hasOnFilesRejected = true then
           [Event.filesRejected
             ((validateSelectedFiles cfg cand st.counter).acceptedFiles.map setCountError)]
         else [])) := by
  unfold handleFiles
  rw [if_pos hacc, hg]

/-- Every file in the files list after `handleFiles` was already selected or
passed validation. -/
theorem handleFiles_files_mem (cfg : Config) (st : HState) (cand : List FileMeta) :
    ∀ e ∈ (handleFiles cfg st cand).1.files,
      e ∈ st.files ∨ validateFile cfg e.toMeta = none := by
  intro e he
  by_cases hacc : 0 < (validateSelectedFiles cfg cand st.counter).acceptedFiles.length
  · rcases hgn : getNewFiles cfg.maxFiles st.files
      (validateSelectedFiles cfg cand st.counter).acceptedFiles with ⟨onf, rv⟩
    cases onf with
    | some nf =>
        rw [handleFiles_eq_some cfg st cand nf rv hacc hgn] at he
        rcases getNewFiles_some_mem hgn e he with h1 | h1
        · exact Or.inl h1
        · exact Or.inr (mem_acceptedFiles_validate cfg cand st.counter e h1)
    | none =>
        rw [handleFiles_eq_none cfg st cand rv hacc hgn] at he
        exact Or.inl he
  · unfold handleFiles at he
    rw [if_neg hacc] at he
    exact Or.inl he

/-- Length bound for `handleFiles`. -/
theorem handleFiles_files_length (cfg : Config) (st : HState) (cand : List FileMeta)
    (h : st.files.length ≤ cfg.maxFiles) :
    (handleFiles cfg st cand).1.files.length ≤ cfg.maxFiles := by
  by_cases hacc : 0 < (validateSelectedFiles cfg cand st.counter).acceptedFiles.length
  · rcases hgn : getNewFiles cfg.maxFiles st.files
      (validateSelectedFiles cfg cand st.counter).acceptedFiles with ⟨onf, rv⟩
    cases onf with
    | some nf =>
        rw [handleFiles_eq_some cfg st cand nf rv hacc hgn]
        exact getNewFiles_some_length hgn
    | none =>
        rw [handleFiles_eq_none cfg st cand rv hacc hgn]
        exact h
  · unfold handleFiles
    rw [if_neg hacc]
    exact h

/-- Indexed filtering never lengthens the list. -/
theorem removeIdxGo_length_le (index : ℕ) :
    ∀ (j : ℕ) (l : List FileWithPreview), (removeIdxGo index j l).length ≤ l.length := by
  intro j l
  induction l generalizing j with
  | nil => simp [removeIdxGo]
  | cons f rest ih =>
      unfold removeIdxGo
      by_cases h : j = index
      · rw [if_pos h]
        exact Nat.le_succ_of_le (ih (j + 1))
      · rw [if_neg h]
        simpa using ih (j + 1)

/-- Indexed filtering with an index past the end keeps the list unchanged. -/
theorem removeIdxGo_of_le (index : ℕ) :
    ∀ (j : ℕ) (l : List FileWithPreview), j + l.length ≤ index → removeIdxGo index j l = l := by
  intro j l
  induction l generalizing j with
  | nil => intro _; rfl
  | cons f rest ih =>
      intro h
      unfold removeIdxGo
      simp only [List.length_cons] at h
      rw [if_neg (by omega)]
      rw [ih (j + 1) (by omega)]

/-- Length bound for `removeFile`. -/
theorem removeFile_files_length (st : HState) (index : ℕ) :
    (removeFile st index).1.files.length ≤ st.files.length := by
  unfold removeFile
  exact removeIdxGo_length_le index 0 st.files

/-- Adoption replaces the files list by the initialized external list. -/
theorem adoptFiles_files_length (st : HState) (cur : List FileWithPreview) :
    (adoptFiles st cur).1.files.length = cur.length := by
  unfold adoptFiles
  simp

/-- The length bound is preserved along any run made of `handleFiles` and
`removeFile` operations. -/
theorem run_files_length (cfg : Config) (ops : List Op)
    (h : ∀ op ∈ ops, op.isUserOp = true) :
    ∀ st : HState, st.files.length ≤ cfg.maxFiles →
      (run cfg st ops).1.files.length ≤ cfg.maxFiles := by
  induction ops with
  | nil => intro st hst; exact hst
  | cons op ops ih =>
      intro st hst
      have hop : op.isUserOp = true := h op (List.mem_cons_self op ops)
      have hops : ∀ o ∈ ops, o.isUserOp = true := fun o ho => h o (List.mem_cons_of_mem op ho)
      show (run cfg st (op :: ops)).1.files.length ≤ cfg.maxFiles
      unfold run
      cases op with
      | handle cand =>
          exact ih hops _ (handleFiles_files_length cfg st cand hst)
      | remove index =>
          exact ih hops _ (Nat.le_trans (removeFile_files_length st index) hst)
      | adopt cur =>
          simp [Op.isUserOp] at hop

/-! Claim theorems. -/

/-- C1 (code bug evaluation): in the run of `cfgClaim1`/`opsClaim1` — two
successive single-image selections with `maxFiles = 2`, followed by teardown —
the preview handle "blob:0" of the first image is revoked twice (the cleanup
effect keyed on `[files]` revokes the previous files list on every change, and
teardown revokes it again), and it is first revoked while its owning entry is
still present in the current files list.  This contradicts the claim that each
handle is revoked exactly once and never while its entry is current. -/
theorem claim1_code_bug_eval :
    (runTeardown cfgClaim1 opsClaim1).2.countP (fun e => e == Event.revoked "blob:0") = 2
    ∧ (run cfgClaim1 initState opsClaim1).2.countP (fun e => e == Event.revoked "blob:0") = 1
    ∧ (run cfgClaim1 initState opsClaim1).1.files.any
        (fun f => f.preview == some "blob:0") = true := by
  decide

/-- C2 (counterexample): in the reachable state `stClaim2` holding one file,
`removeFile 5` — an index beyond the list's length — still emits a
`filesChanged` event (the source calls `onFilesChanged(newFiles)`
unconditionally), contradicting the claim that no callback is invoked. -/
theorem claim2_counterexample :
    stClaim2.files.length ≤ 5
    ∧ (removeFile stClaim2 5).2 =
      [Event.filesChanged
        [{ name := "a.txt", size := 1, type := "text/plain", preview := none, error := none }]] := by
  decide

/-- C2 (amended): `removeFile` at an index at or beyond the current length
removes no file and revokes no preview of its own, and leaves the errors list
unchanged — but it still invokes `onFilesChanged` with the value-unchanged
list, and the fresh array stored by `setFiles` re-triggers the cleanup effect,
which revokes the previews captured at the previous render. -/
theorem claim2_amended (st : HState) (index : ℕ) (h : st.files.length ≤ index) :
    (removeFile st index).1.files = st.files
    ∧ (removeFile st index).1.errors = st.errors
    ∧ (removeFile st index).2 =
        [Event.filesChanged st.files] ++ (revokePreviews st.cleanupFiles).map Event.revoked := by
  have hnone : st.files[index]? = none := List.getElem?_eq_none h
  have hkeep : removeIdxGo index 0 st.files = st.files :=
    removeIdxGo_of_le index 0 st.files (by omega)
  unfold removeFile
  rw [hnone, hkeep]
  exact ⟨rfl, rfl, rfl⟩

/-- C2 (amended, witness): the amended statement evaluated in the reachable
one-file state at the stale index 5. -/
theorem claim2_amended_witness :
    (removeFile stClaim2 5).1.files = stClaim2.files
    ∧ (removeFile stClaim2 5).1.errors = stClaim2.errors
    ∧ (removeFile stClaim2 5).2 =
        [Event.filesChanged stClaim2.files] ++
          (revokePreviews stClaim2.cleanupFiles).map Event.revoked :=
  claim2_amended stClaim2 5 (by decide)

/-- C4 (counterexample): in the reachable full state `stClaim4` (two files,
`maxFiles = 2`, rejection callback supplied), submitting a batch containing
one type-invalid file and one valid file produces a validation-rejected entry,
yet the whole event trace of `handleFiles` consists of a single
`onFilesRejected` call carrying only the count-annotated accepted file: the
early `return` of the count-limit path skips the call that would deliver the
batch's individually-invalid files, so no separate call delivering them ever
happens, contradicting the claim. -/
theorem claim4_counterexample :
    (validateSelectedFiles cfgClaim4 candClaim4 stClaim4.counter).rejectedFiles =
      [{ name := "x.png", size := 1, type := "image/png", preview := none,
         error := some "The file type \"image/png\" is not accepted." }]
    ∧ (handleFiles cfgClaim4 stClaim4 candClaim4).2 =
      [Event.filesRejected
        [{ name := "c.txt", size := 1, type := "text/plain", preview := none,
           error := some "Exceeded the maximum number of allowed files." }]]
    ∧ (handleFiles cfgClaim4 stClaim4 candClaim4).1.files = stClaim4.files := by
  decide

/-- C6 (counterexample): with `maxFiles = 1`, adopting an externally supplied
`currentFiles` list of two entries leaves the files list with length 2 — the
initialization effect performs no truncation, so the bound `files.length ≤
maxFiles` fails for states produced by `currentFiles` adoption. -/
theorem claim6_counterexample :
    ¬ (run cfgClaim6 initState [Op.adopt curClaim6]).1.files.length ≤ cfgClaim6.maxFiles := by
  decide

/-- C6 (amended): along every run consisting only of `handleFiles` and
`removeFile` operations from the freshly mounted controller, the files list
never exceeds `maxFiles`; adoption of an externally supplied `currentFiles`
list instead replaces the files list outright, making its length the length
of the supplied list (which may exceed `maxFiles`). -/
theorem claim6_amended (cfg : Config) (ops : List Op)
    (h : ∀ op ∈ ops, op.isUserOp = true) :
    (run cfg initState ops).1.files.length ≤ cfg.maxFiles
    ∧ ∀ (st : HState) (cur : List FileWithPreview),
        (adoptFiles st cur).1.files.length = cur.length := by
  constructor
  · exact run_files_length cfg ops h initState (by simp [initState])
  · exact adoptFiles_files_length

/-- C6 (amended, witness): the bound evaluated on a concrete run that fills,
overfills and then shrinks a two-slot selection. -/
theorem claim6_amended_witness :
    (run { maxFiles := 2, maxSize := 100, acceptedType := "text/*", hasOnFilesRejected := false }
      initState
      [Op.handle [{ name := "a.txt", size := 1, type := "text/plain" },
                  { name := "b.txt", size := 1, type := "text/plain" },
                  { name := "c.txt", size := 1, type := "text/plain" }],
       Op.remove 0]).1.files.length ≤ 2
    ∧ ∀ (st : HState) (cur : List FileWithPreview),
        (adoptFiles st cur).1.files.length = cur.length :=
  claim6_amended
    { maxFiles := 2, maxSize := 100, acceptedType := "text/*", hasOnFilesRejected := false }
    [Op.handle [{ name := "a.txt", size := 1, type := "text/plain" },
                { name := "b.txt", size := 1, type := "text/plain" },
                { name := "c.txt", size := 1, type := "text/plain" }],
     Op.remove 0]
    (by decide)

/-- C8 (counterexample): the mime string "video/text" has top-level type
"video" (the part before the slash), which the claim's top-level rule maps to
`Video`; the source's `mapType` instead finds the substring "text" first and
returns `Text`, and with `acceptedType = "text/*"` the file is accepted by
`validateFile` even though the claim's rule would reject it.  Category
derivation is therefore substring search over the whole mime string, not a
function of the top-level type. -/
theorem claim8_counterexample :
    validateFile { maxFiles := 1, maxSize := 100, acceptedType := "text/*",
                   hasOnFilesRejected := false }
        { name := "v", size := 1, type := "video/text" } = none
    ∧ mapType "video/text" = FileType.Text
    ∧ "video/text".toList.takeWhile (fun c => c != '/') = "video".toList
    ∧ FileType.Text ≠ FileType.Video := by
  decide

/-- C10: the `FileInput` component's `bytesToMB` agrees with the controller's
`bytesToUnit` at unit MB on every byte count — the two size-formatting
implementations perform the same division by 2^20 and the same one-decimal
rounding. -/
theorem claim10_bytesToMB_refines : ∀ b : ℕ, bytesToMB b = bytesToUnit b ByteUnit.MB :=
  fun _ => rfl

/-- C9: `getAppropriateUnit` returns GB exactly for byte counts at or above
2^30 (in particular at the two boundary values named by the claim), the
sample conversion `bytesToUnit 1572864 MB = 1.5` holds, and for every byte
count `bytesToUnit` is a multiple of one tenth within half a tenth of the
exact division by 2^20 (MB) or 2^30 (GB), rounding ties upward. -/
theorem claim9_unit_rule :
    (∀ b : ℕ, getAppropriateUnit b = ByteUnit.GB ↔ 2 ^ 30 ≤ b)
    ∧ getAppropriateUnit 1073741823 = ByteUnit.MB
    ∧ getAppropriateUnit 1073741824 = ByteUnit.GB
    ∧ bytesToUnit 1572864 ByteUnit.MB = 3 / 2
    ∧ (∀ b : ℕ, ∃ n : ℤ, bytesToUnit b ByteUnit.MB = (n : ℚ) / 10 ∧
        (b : ℚ) / 2 ^ 20 - 1 / 20 < (n : ℚ) / 10 ∧ (n : ℚ) / 10 ≤ (b : ℚ) / 2 ^ 20 + 1 / 20)
    ∧ (∀ b : ℕ, ∃ n : ℤ, bytesToUnit b ByteUnit.GB = (n : ℚ) / 10 ∧
        (b : ℚ) / 2 ^ 30 - 1 / 20 < (n : ℚ) / 10 ∧ (n : ℚ) / 10 ≤ (b : ℚ) / 2 ^ 30 + 1 / 20) := by
  refine ⟨?_, by decide, by decide, ?_, ?_, ?_⟩
  · intro b
    have hpow : (2 : ℕ) ^ 30 = 1024 * 1024 * 1024 := by norm_num
    rw [hpow]
    unfold getAppropriateUnit
    split
    · rename_i h
      exact ⟨fun _ => h, fun _ => rfl⟩
    · rename_i h
      exact ⟨fun hc => absurd hc (by decide), fun hc => absurd hc h⟩
  · show toFixed1 ((1572864 : ℚ) / (1024 * 1024)) = 3 / 2
    unfold toFixed1
    norm_num
  · intro b
    refine ⟨⌊(b : ℚ) / (1024 * 1024) * 10 + 1 / 2⌋, rfl, ?_, ?_⟩
    · have hpow : ((2 : ℚ) ^ 20) = 1024 * 1024 := by norm_num
      rw [hpow]
      have h2 := Int.lt_floor_add_one ((b : ℚ) / (1024 * 1024) * 10 + 1 / 2)
      linarith
    · have hpow : ((2 : ℚ) ^ 20) = 1024 * 1024 := by norm_num
      rw [hpow]
      have h1 := Int.floor_le ((b : ℚ) / (1024 * 1024) * 10 + 1 / 2)
      linarith
  · intro b
    refine ⟨⌊(b : ℚ) / (1024 * 1024 * 1024) * 10 + 1 / 2⌋, rfl, ?_, ?_⟩
    · have hpow : ((2 : ℚ) ^ 30) = 1024 * 1024 * 1024 := by norm_num
      rw [hpow]
      have h2 := Int.lt_floor_add_one ((b : ℚ) / (1024 * 1024 * 1024) * 10 + 1 / 2)
      linarith
    · have hpow : ((2 : ℚ) ^ 30) = 1024 * 1024 * 1024 := by norm_num
      rw [hpow]
      have h1 := Int.floor_le ((b : ℚ) / (1024 * 1024 * 1024) * 10 + 1 / 2)
      linarith

/-- C7: every candidate whose size strictly exceeds `maxSize` is rejected by
`validateFile` with the size message — regardless of its type, since the size
check runs before the type check — and that message contains the file's name
and the configured `maxSize` converted via the unit-selection rule; moreover
no entry derived from such a candidate can appear in the files list after any
`handleFiles` call (it never enters the selection). -/
theorem claim7_size_rejection (cfg : Config) (f : FileMeta) (h : cfg.maxSize < f.size) :
    validateFile cfg f =
      some ("The file \"" ++ f.name ++ "\" exceeds the maximum size of " ++
        ratTenthsToString (bytesToUnit cfg.maxSize (getAppropriateUnit cfg.maxSize)) ++ " " ++
        (getAppropriateUnit cfg.maxSize).str ++ ".")
    ∧ (∃ s t, "The file \"" ++ f.name ++ "\" exceeds the maximum size of " ++
        ratTenthsToString (bytesToUnit cfg.maxSize (getAppropriateUnit cfg.maxSize)) ++ " " ++
        (getAppropriateUnit cfg.maxSize).str ++ "." = s ++ f.name ++ t)
    ∧ (∃ s t, "The file \"" ++ f.name ++ "\" exceeds the maximum size of " ++
        ratTenthsToString (bytesToUnit cfg.maxSize (getAppropriateUnit cfg.maxSize)) ++ " " ++
        (getAppropriateUnit cfg.maxSize).str ++ "." =
          s ++ ratTenthsToString (bytesToUnit cfg.maxSize (getAppropriateUnit cfg.maxSize)) ++ t)
    ∧ ∀ (st : HState) (cand : List FileMeta),
        ∀ e ∈ (handleFiles cfg st cand).1.files, e.toMeta = f → e ∈ st.files := by
  have hmsg : validateFile cfg f =
      some ("The file \"" ++ f.name ++ "\" exceeds the maximum size of " ++
        ratTenthsToString (bytesToUnit cfg.maxSize (getAppropriateUnit cfg.maxSize)) ++ " " ++
        (getAppropriateUnit cfg.maxSize).str ++ ".") := by
    unfold validateFile
    rw [if_pos h]
  refine ⟨hmsg, ?_, ?_, ?_⟩
  · refine ⟨"The file \"",
      "\" exceeds the maximum size of " ++
        ratTenthsToString (bytesToUnit cfg.maxSize (getAppropriateUnit cfg.maxSize)) ++ " " ++
        (getAppropriateUnit cfg.maxSize).str ++ ".", ?_⟩
    simp [String.append_assoc]
  · refine ⟨"The file \"" ++ f.name ++ "\" exceeds the maximum size of ",
      " " ++ (getAppropriateUnit cfg.maxSize).str ++ ".", ?_⟩
    simp [String.append_assoc]
  · intro st cand e he hmeta
    rcases handleFiles_files_mem cfg st cand e he with h1 | h1
    · exact h1
    · rw [hmeta, hmsg] at h1
      exact absurd h1 (by simp)

/-- C7 (witness): the size rejection evaluated on a 5 MiB limit and a file
one byte over it. -/
theorem claim7_witness :
    validateFile { maxFiles := 1, maxSize := 5242880, acceptedType := "image/*",
                   hasOnFilesRejected := false }
        { name := "big.png", size := 5242881, type := "image/png" } =
      some ("The file \"" ++ "big.png" ++ "\" exceeds the maximum size of " ++
        ratTenthsToString (bytesToUnit 5242880 (getAppropriateUnit 5242880)) ++ " " ++
        (getAppropriateUnit 5242880).str ++ ".") :=
  (claim7_size_rejection
    { maxFiles := 1, maxSize := 5242880, acceptedType := "image/*", hasOnFilesRejected := false }
    { name := "big.png", size := 5242881, type := "image/png" } (by norm_num)).1

/-- C8 (amended): the category of a candidate is derived by searching the
whole mime string for the substrings "application", "text", "image", "audio",
"video" in that fixed order (first match wins, default `Image`) — which
coincides with the top-level-type rule on ordinary mime types, as the sample
table shows, but not in general (see the counterexample "video/text") — and
every candidate that passes the size check and whose derived category differs
from `acceptedType` is rejected with a message stating the raw mime type, and
such a candidate never enters the files list. -/
theorem claim8_amended (cfg : Config) (f : FileMeta)
    (hsize : f.size ≤ cfg.maxSize) (htype : (mapType f.type).val ≠ cfg.acceptedType) :
    validateFile cfg f = some ("The file type \"" ++ f.type ++ "\" is not accepted.")
    ∧ (∃ s t, "The file type \"" ++ f.type ++ "\" is not accepted." = s ++ f.type ++ t)
    ∧ (∀ (st : HState) (cand : List FileMeta),
        ∀ e ∈ (handleFiles cfg st cand).1.files, e.toMeta = f → e ∈ st.files)
    ∧ mapType "application/pdf" = FileType.Text
    ∧ mapType "text/plain" = FileType.Text
    ∧ mapType "image/png" = FileType.Image
    ∧ mapType "audio/mpeg" = FileType.Audio
    ∧ mapType "video/mp4" = FileType.Video
    ∧ mapType "font/woff" = FileType.Image
    ∧ mapType "video/text" = FileType.Text := by
  have hmsg : validateFile cfg f =
      some ("The file type \"" ++ f.type ++ "\" is not accepted.") := by
    unfold validateFile
    rw [if_neg (by omega), if_pos htype]
  refine ⟨hmsg, ?_, ?_, by decide, by decide, by decide, by decide, by decide, by decide,
    by decide⟩
  · exact ⟨"The file type \"", "\" is not accepted.", by simp [String.append_assoc]⟩
  · intro st cand e he hmeta
    rcases handleFiles_files_mem cfg st cand e he with h1 | h1
    · exact h1
    · rw [hmeta, hmsg] at h1
      exact absurd h1 (by simp)

/-- C8 (amended, witness): an image-typed candidate offered to a text-only
controller is rejected with the raw mime type in the message. -/
theorem claim8_amended_witness :
    validateFile { maxFiles := 1, maxSize := 100, acceptedType := "text/*",
                   hasOnFilesRejected := false }
        { name := "x.png", size := 1, type := "image/png" } =
      some ("The file type \"" ++ "image/png" ++ "\" is not accepted.") :=
  (claim8_amended
    { maxFiles := 1, maxSize := 100, acceptedType := "text/*", hasOnFilesRejected := false }
    { name := "x.png", size := 1, type := "image/png" } (by norm_num) (by decide)).1

/-- Any `filesRejected` event in a successful-update trace carries exactly the
validation-rejected batch. -/
theorem filesRejected_mem_trace {l nf rej : List FileWithPreview}
    {alloc rv cl : List String} {b : Prop} [Decidable b]
    (h : Event.filesRejected l ∈
      alloc.map Event.allocated ++ rv.map Event.revoked ++ [Event.filesChanged nf] ++
        (if b then [Event.filesRejected rej] else []) ++ cl.map Event.revoked) :
    l = rej := by
  by_cases hb : b
  · rw [if_pos hb] at h
    simp only [List.mem_append, List.mem_map, List.mem_singleton] at h
    rcases h with ((((⟨a, _, ha⟩ | ⟨a, _, ha⟩) | ha) | ha) | ⟨a, _, ha⟩)
    · exact absurd ha (by simp)
    · exact absurd ha (by simp)
    · exact absurd ha (by simp)
    · exact (Event.filesRejected.inj ha.symm).symm
    · exact absurd ha (by simp)
  · rw [if_neg hb] at h
    simp only [List.mem_append, List.mem_map, List.mem_singleton, List.not_mem_nil,
      or_false, false_or] at h
    rcases h with ((⟨a, _, ha⟩ | ⟨a, _, ha⟩) | ha) | ⟨a, _, ha⟩
    · exact absurd ha (by simp)
    · exact absurd ha (by simp)
    · exact absurd ha (by simp)
    · exact absurd ha (by simp)

/-- C3: when `maxFiles = 1` and the batch has at least one accepted candidate,
`handleFiles` replaces the whole selection by the first accepted candidate
alone, every preview handle of the previously selected files (in particular of
the previously selected file, if any) is revoked in the same step, and no
count-limit rejection occurs: the errors list is exactly the batch's
validation messages (no aggregate maximum-files error is appended) and any
rejection callback of the step delivers only validation-rejected files. -/
theorem claim3_replace_one (cfg : Config) (st : HState) (cand : List FileMeta)
    (h1 : cfg.maxFiles = 1)
    (h2 : (validateSelectedFiles cfg cand st.counter).acceptedFiles ≠ []) :
    (handleFiles cfg st cand).1.files =
      (validateSelectedFiles cfg cand st.counter).acceptedFiles.take 1
    ∧ (∀ p ∈ revokePreviews st.files, Event.revoked p ∈ (handleFiles cfg st cand).2)
    ∧ (handleFiles cfg st cand).1.errors =
        (validateSelectedFiles cfg cand st.counter).errorMessages
    ∧ (∀ l, Event.filesRejected l ∈ (handleFiles cfg st cand).2 →
        l = (validateSelectedFiles cfg cand st.counter).rejectedFiles) := by
  have hacc : 0 < (validateSelectedFiles cfg cand st.counter).acceptedFiles.length :=
    List.length_pos.mpr h2
  have hg : getNewFiles cfg.maxFiles st.files
      (validateSelectedFiles cfg cand st.counter).acceptedFiles =
      (some ((validateSelectedFiles cfg cand st.counter).acceptedFiles.take 1),
       revokePreviews st.files) := by
    unfold getNewFiles
    rw [if_pos h1, h1]
  have heq := handleFiles_eq_some cfg st cand _ _ hacc hg
  rw [heq]
  refine ⟨rfl, ?_, rfl, ?_⟩
  · intro p hp
    apply List.mem_append_left
    apply List.mem_append_left
    apply List.mem_append_left
    apply List.mem_append_right
    exact List.mem_map_of_mem Event.revoked hp
  · intro l hl
    exact filesRejected_mem_trace hl

/-- C3 (witness): a second single-image selection with `maxFiles = 1`
replaces the first selection by the new accepted candidate. -/
theorem claim3_witness :
    (handleFiles
      { maxFiles := 1, maxSize := 1000000, acceptedType := "image/*", hasOnFilesRejected := false }
      (run { maxFiles := 1, maxSize := 1000000, acceptedType := "image/*",
             hasOnFilesRejected := false }
        initState [Op.handle [{ name := "a.png", size := 10, type := "image/png" }]]).1
      [{ name := "b.png", size := 20, type := "image/png" }]).1.files =
    (validateSelectedFiles
      { maxFiles := 1, maxSize := 1000000, acceptedType := "image/*", hasOnFilesRejected := false }
      [{ name := "b.png", size := 20, type := "image/png" }]
      (run { maxFiles := 1, maxSize := 1000000, acceptedType := "image/*",
             hasOnFilesRejected := false }
        initState [Op.handle [{ name := "a.png", size := 10, type := "image/png" }]]).1.counter
      ).acceptedFiles.take 1 :=
  (claim3_replace_one
    { maxFiles := 1, maxSize := 1000000, acceptedType := "image/*", hasOnFilesRejected := false }
    (run { maxFiles := 1, maxSize := 1000000, acceptedType := "image/*",
           hasOnFilesRejected := false }
      initState [Op.handle [{ name := "a.png", size := 10, type := "image/png" }]]).1
    [{ name := "b.png", size := 20, type := "image/png" }]
    rfl (by decide)).1

/-- No `filesChanged` event occurs in a count-rejection trace. -/
theorem filesChanged_not_mem_trace {l rej : List FileWithPreview} {alloc rv : List String}
    {b : Prop} [Decidable b] :
    Event.filesChanged l ∉
      alloc.map Event.allocated ++ rv.map Event.revoked ++
        (if b then [Event.filesRejected rej] else []) := by
  intro h
  by_cases hb : b
  · rw [if_pos hb] at h
    simp only [List.mem_append, List.mem_map, List.mem_singleton] at h
    rcases h with (⟨a, _, ha⟩ | ⟨a, _, ha⟩) | ha <;> exact absurd ha (by simp)
  · rw [if_neg hb] at h
    simp only [List.mem_append, List.mem_map, List.not_mem_nil, or_false] at h
    rcases h with ⟨a, _, ha⟩ | ⟨a, _, ha⟩ <;> exact absurd ha (by simp)

/-- C4 (amended): when `maxFiles > 1` and no room is left (`files.length ≥
maxFiles`) and the batch has accepted candidates, `handleFiles` leaves the
files list unchanged, never emits `filesChanged`, sets the errors list to the
batch's validation messages with the aggregate maximum-files error appended,
and — when the rejection callback is supplied — makes exactly one
`onFilesRejected` call, carrying the accepted batch annotated with the
count-limit message; because of the early return, the batch's
validation-rejected files are not delivered to `onFilesRejected` at all in
this path (no separate call for them occurs). -/
theorem claim4_amended (cfg : Config) (st : HState) (cand : List FileMeta)
    (h1 : cfg.maxFiles ≠ 1) (h2 : cfg.maxFiles ≤ st.files.length)
    (h3 : (validateSelectedFiles cfg cand st.counter).acceptedFiles ≠ []) :
    (handleFiles cfg st cand).1.files = st.files
    ∧ (handleFiles cfg st cand).1.errors =
        (validateSelectedFiles cfg cand st.counter).errorMessages ++
          [maxFilesErrorMsg cfg.maxFiles]
    ∧ (handleFiles cfg st cand).2 =
        (validateSelectedFiles cfg cand st.counter).allocated.map Event.allocated ++
          (if cfg.hasOnFilesRejected = true then
            [Event.filesRejected
              ((validateSelectedFiles cfg cand st.counter).acceptedFiles.map setCountError)]
          else [])
    ∧ (∀ l, Event.filesChanged l ∉ (handleFiles cfg st cand).2) := by
  have hacc : 0 < (validateSelectedFiles cfg cand st.counter).acceptedFiles.length :=
    List.length_pos.mpr h3
  have hg : getNewFiles cfg.maxFiles st.files
      (validateSelectedFiles cfg cand st.counter).acceptedFiles = (none, []) := by
    unfold getNewFiles
    rw [if_neg h1, if_pos (by omega), if_neg (by omega)]
  have heq := handleFiles_eq_none cfg st cand [] hacc hg
  rw [heq]
  refine ⟨rfl, rfl, by simp, ?_⟩
  intro l hl
  have : Event.filesChanged l ∈
      (validateSelectedFiles cfg cand st.counter).allocated.map Event.allocated ++
        ([] : List String).map Event.revoked ++
        (if cfg.hasOnFilesRejected = true then
          [Event.filesRejected
            ((validateSelectedFiles cfg cand st.counter).acceptedFiles.map setCountError)]
        else []) := hl
  exact filesChanged_not_mem_trace this

/-- C4 (amended, witness): the full-state rejection evaluated in the
reachable two-file state `stClaim4` on the mixed batch `candClaim4`. -/
theorem claim4_amended_witness :
    (handleFiles cfgClaim4 stClaim4 candClaim4).1.errors =
      (validateSelectedFiles cfgClaim4 candClaim4 stClaim4.counter).errorMessages ++
        [maxFilesErrorMsg cfgClaim4.maxFiles] :=
  (claim4_amended cfgClaim4 stClaim4 candClaim4 (by decide) (by decide) (by decide)).2.1

/-- C5: when `maxFiles > 1` and the room `maxFiles - files.length` is
positive but smaller than the accepted batch, `handleFiles` appends exactly
the first `room` accepted files in order, emits `filesChanged` with the new
list, and the remainder is silently dropped: the errors list carries only the
batch's validation messages, and the full event trace shows that the only
possible `onFilesRejected` call delivers the validation-rejected files — no
event reports the dropped accepted files. -/
theorem claim5_partial_room (cfg : Config) (st : HState) (cand : List FileMeta)
    (h1 : cfg.maxFiles ≠ 1)
    (h2 : st.files.length < cfg.maxFiles)
    (h3 : cfg.maxFiles <
      st.files.length + (validateSelectedFiles cfg cand st.counter).acceptedFiles.length) :
    (handleFiles cfg st cand).1.files =
      st.files ++ (validateSelectedFiles cfg cand st.counter).acceptedFiles.take
        (cfg.maxFiles - st.files.length)
    ∧ Event.filesChanged ((handleFiles cfg st cand).1.files) ∈ (handleFiles cfg st cand).2
    ∧ (handleFiles cfg st cand).1.errors =
        (validateSelectedFiles cfg cand st.counter).errorMessages
    ∧ (handleFiles cfg st cand).2 =
        (validateSelectedFiles cfg cand st.counter).allocated.map Event.allocated ++
          [Event.filesChanged
            (st.files ++ (validateSelectedFiles cfg cand st.counter).acceptedFiles.take
              (cfg.maxFiles - st.files.length))] ++
          (if 0 < (validateSelectedFiles cfg cand st.counter).rejectedFiles.length ∧
              cfg.hasOnFilesRejected = true then
            [Event.filesRejected (validateSelectedFiles cfg cand st.counter).rejectedFiles]
          else []) ++
          (revokePreviews st.cleanupFiles).map Event.revoked := by
  have hacc : 0 < (validateSelectedFiles cfg cand st.counter).acceptedFiles.length := by
    omega
  have htoNat : ((cfg.maxFiles : ℤ) - (st.files.length : ℤ)).toNat =
      cfg.maxFiles - st.files.length := by
    omega
  have hg : getNewFiles cfg.maxFiles st.files
      (validateSelectedFiles cfg cand st.counter).acceptedFiles =
      (some (st.files ++ (validateSelectedFiles cfg cand st.counter).acceptedFiles.take
        (cfg.maxFiles - st.files.length)), []) := by
    unfold getNewFiles
    rw [if_neg h1, if_pos h3, if_pos (by omega), htoNat]
  have heq := handleFiles_eq_some cfg st cand _ _ hacc hg
  rw [heq]
  refine ⟨rfl, ?_, rfl, by simp⟩
  apply List.mem_append_left
  apply List.mem_append_left
  apply List.mem_append_right
  exact List.mem_singleton_self _

/-- C5 (witness): with three slots, two already filled, a batch of three
valid candidates fills the selection to exactly three files. -/
theorem claim5_witness :
    (handleFiles cfgClaim5 stClaim5 candClaim5).1.files =
      stClaim5.files ++ (validateSelectedFiles cfgClaim5 candClaim5 stClaim5.counter
        ).acceptedFiles.take (cfgClaim5.maxFiles - stClaim5.files.length) :=
  (claim5_partial_room cfgClaim5 stClaim5 candClaim5 (by decide) (by decide) (by decide)).1
